import Mathlib

/-!
Verification of the simulation core of the terminal Pong game
(`src/pong/pong.py`, class `PongGame`).

The Python code is shallowly embedded here.  Python floats are modelled by
exact rationals (`ℚ`); Python ints by `ℤ`/`ℕ`; Python `//` (floor division)
by `Int.fdiv`; Python 3 `round` (round-half-to-even) by `pyRound`.  The
wall-clock (`time.time()`) is threaded explicitly as a `now : ℚ` argument,
and the random draws of `reset_ball` / `update_ai_paddle` are threaded as
oracle arguments (the draw of `reset_ball` itself, which uses real-valued
trigonometry, is modelled separately over `ℝ` by `reset_ball_velocity`).
Fields of `PongGame` that only affect drawing (`show_mode_change`,
`mode_change_time`, `show_difficulty_change`, `difficulty_change_time`) are
not modelled; neither are the curses drawing routines.
-/

/-- The winner strings `"Player 1"` / `"Player 2"` of the Python code,
modelled as an inductive type.  Player 1 owns the left paddle, Player 2
the right paddle. -/
inductive Player where
  | P1
  | P2
deriving DecidableEq

/-- The four movement keys tracked by `key_states` / `continuous_keys`
(`'w'`, `'s'`, `'up'`, `'down'`). -/
inductive Key where
  | w
  | s
  | up
  | down
deriving DecidableEq

/-- The `key_states` dictionary of `PongGame.__init__`. -/
structure KeyStates where
  w : Bool
  s : Bool
  up : Bool
  down : Bool
deriving DecidableEq

/-- The input-tracking state of `PongGame`: `key_states`, `last_key_time`
and `continuous_keys`.  The Python set `continuous_keys` is modelled as a
duplicate-free list; the per-key actions of the release loop are
independent of each other, so the iteration order of the set does not
matter. -/
structure InputState where
  key_states : KeyStates
  last_w : ℚ
  last_s : ℚ
  last_up : ℚ
  last_down : ℚ
  continuous_keys : List Key
deriving DecidableEq

/-- The simulation state of `PongGame` (everything `reset_game`,
`update_*` and `handle_input` read or write, except the purely visual
notification fields). -/
structure GameState where
  height : ℤ
  width : ℤ
  target_score : ℕ
  single_player : Bool
  current_difficulty : Fin 3
  ball_speed : ℚ
  ai_speed : ℚ
  ai_prediction : ℚ
  paddle_height : ℤ
  paddle_width : ℤ
  p1_y : ℚ
  p1_x : ℤ
  p1_score : ℕ
  p1_velocity : ℚ
  p2_y : ℚ
  p2_x : ℤ
  p2_score : ℕ
  p2_velocity : ℚ
  paddle_speed : ℚ
  paddle_acceleration : ℚ
  last_paddle_update : ℚ
  p1_moving_up : Bool
  p1_moving_down : Bool
  p2_moving_up : Bool
  p2_moving_down : Bool
  ball_x : ℚ
  ball_y : ℚ
  ball_dx : ℚ
  ball_dy : ℚ
  last_ball_move : ℚ
  game_over : Bool
  winner : Option Player
  paused : Bool
deriving DecidableEq

/-- Python 3 `round` on an exact rational: round half to even. -/
def pyRound (q : ℚ) : ℤ :=
  let f := ⌊q⌋
  let frac := q - f
  if frac < 1/2 then f
  else if 1/2 < frac then f + 1
  else if f % 2 = 0 then f else f + 1

/-- The `ball_speeds` list `[0.04, 0.02, 0.01]` of `__init__`. -/
def ball_speeds : Fin 3 → ℚ
  | 0 => 1/25
  | 1 => 1/50
  | 2 => 1/100

/-- The AI `difficulty_multipliers` list `[0.6, 0.8, 1.0]` of
`update_difficulty_settings`. -/
def difficulty_multipliers : Fin 3 → ℚ
  | 0 => 3/5
  | 1 => 4/5
  | 2 => 1

/-- `PongGame.update_difficulty_settings`: recompute `ai_speed`,
`ai_prediction` and `ball_speed` from the current difficulty
(`ai_base_speed = 0.8`, `ai_base_prediction = 0.3`). -/
def update_difficulty_settings (g : GameState) : GameState :=
  let m := difficulty_multipliers g.current_difficulty
  { g with
    ai_speed := (4/5) * m
    ai_prediction := (3/10) * m
    ball_speed := ball_speeds g.current_difficulty }

/-- `PongGame.reset_ball`, with the random direction/speed draw supplied
as the oracle arguments `odx ody` (the draw itself is real-valued
trigonometry and is modelled over `ℝ` by `reset_ball_velocity`).  The ball
is placed at the field center and `last_ball_move` is stamped with the
current time. -/
def reset_ball (g : GameState) (now odx ody : ℚ) : GameState :=
  { g with
    ball_x := ((g.width.fdiv 2 : ℤ) : ℚ)
    ball_y := ((g.height.fdiv 2 : ℤ) : ℚ)
    ball_dx := odx
    ball_dy := ody
    last_ball_move := now }

/-- `PongGame.reset_game`: paddles recentered, scores and velocities
zeroed, movement intent cleared, ball reset, game-over/winner/paused
cleared. -/
def reset_game (g : GameState) (now odx ody : ℚ) : GameState :=
  reset_ball
    { g with
      paddle_height := 5
      paddle_width := 1
      p1_y := ((g.height.fdiv 2 - (5:ℤ).fdiv 2 : ℤ) : ℚ)
      p1_x := 2
      p1_score := 0
      p1_velocity := 0
      p2_y := ((g.height.fdiv 2 - (5:ℤ).fdiv 2 : ℤ) : ℚ)
      p2_x := g.width - 3
      p2_score := 0
      p2_velocity := 0
      paddle_speed := 15
      paddle_acceleration := 50
      last_paddle_update := now
      p1_moving_up := false
      p1_moving_down := false
      p2_moving_up := false
      p2_moving_down := false
      game_over := false
      winner := none
      paused := false } now odx ody

/-- The smooth acceleration / snap-to-target velocity update used (with
the respective acceleration constants) in `update_paddle_movement` and
`update_ai_paddle` (pong.py lines 189-198): accelerate toward the target
by `accel * dt`, clamp exactly to the target on overshoot, and snap to the
target outright once the remaining gap is at most `0.1`. -/
def updatePaddleVelocity (accel target v dt : ℚ) : ℚ :=
  let diff := target - v
  if 1/10 < |diff| then
    let a := accel * (if 0 < diff then 1 else -1)
    let v2 := v + a * dt
    if (0 < diff ∧ target < v2) ∨ (diff < 0 ∧ v2 < target) then target else v2
  else target

/-- The bounded position update used for every paddle (pong.py lines
201-205, 228-232, 288-292): accept `y + v * dt` only when it stays inside
`[1, height - paddle_height - 1]`, otherwise keep the position and zero
the velocity. -/
def updatePaddlePosition (height paddle_height : ℤ) (y v dt : ℚ) : ℚ × ℚ :=
  let newY := y + v * dt
  if 1 ≤ newY ∧ newY ≤ (height : ℚ) - (paddle_height : ℚ) - 1 then (newY, v)
  else (y, 0)

/-- `PongGame.update_paddle_movement`: dt capped at `0.1`, then the
velocity/position update for player 1, and for player 2 only in
two-player mode. -/
def update_paddle_movement (g : GameState) (now : ℚ) : GameState :=
  let dt := min (now - g.last_paddle_update) (1/10)
  let g := { g with last_paddle_update := now }
  let target1 : ℚ :=
    if g.p1_moving_up then -g.paddle_speed
    else if g.p1_moving_down then g.paddle_speed
    else 0
  let v1 := updatePaddleVelocity g.paddle_acceleration target1 g.p1_velocity dt
  let r1 := updatePaddlePosition g.height g.paddle_height g.p1_y v1 dt
  let g := { g with p1_y := r1.1, p1_velocity := r1.2 }
  if ¬g.single_player then
    let target2 : ℚ :=
      if g.p2_moving_up then -g.paddle_speed
      else if g.p2_moving_down then g.paddle_speed
      else 0
    let v2 := updatePaddleVelocity g.paddle_acceleration target2 g.p2_velocity dt
    let r2 := updatePaddlePosition g.height g.paddle_height g.p2_y v2 dt
    { g with p2_y := r2.1, p2_velocity := r2.2 }
  else g

/-- `PongGame.update_ai_paddle`, with the two random draws (the 10%
noise roll and the uniform noise value) supplied as oracles.  Note the
code reads `last_paddle_update` without updating it. -/
def update_ai_paddle (g : GameState) (now : ℚ) (noiseActive : Bool) (noise : ℚ) :
    GameState :=
  if ¬g.single_player ∨ g.paused ∨ g.game_over then g
  else
    let dt := min (now - g.last_paddle_update) (1/10)
    let predicted_y : ℚ :=
      if 0 < g.ball_dx then
        let time_to_paddle := ((g.p2_x : ℚ) - g.ball_x) / |g.ball_dx|
        let p := g.ball_y + g.ball_dy * time_to_paddle * g.ai_prediction
        if noiseActive then p + noise else p
      else ((g.height.fdiv 2 : ℤ) : ℚ)
    let paddle_center := g.p2_y + ((g.paddle_height.fdiv 2 : ℤ) : ℚ)
    let distance_to_target := predicted_y - paddle_center
    let target_velocity : ℚ :=
      if 1/2 < |distance_to_target| then
        let max_ai_speed := g.paddle_speed * g.ai_speed
        let tv := max_ai_speed * (if 0 < distance_to_target then 1 else -1)
        tv * min 1 (|distance_to_target| / 3)
      else 0
    let v := updatePaddleVelocity (g.paddle_acceleration * (4/5)) target_velocity
      g.p2_velocity dt
    let r := updatePaddlePosition g.height g.paddle_height g.p2_y v dt
    { g with p2_y := r.1, p2_velocity := r.2 }

/-- The top/bottom wall handling of `update_ball` (pong.py lines 307-309):
on `y <= 1 or y >= height - 2`, negate `dy` and clamp `y` into
`[2, height - 3]`; otherwise leave both unchanged.  Returns `(y, dy)`. -/
def wallCollide (height : ℤ) (y dy : ℚ) : ℚ × ℚ :=
  if y ≤ 1 ∨ (height : ℚ) - 2 ≤ y then
    (max 2 (min y ((height : ℚ) - 3)), -dy)
  else (y, dy)

/-- The left-paddle collision of `update_ball` (pong.py lines 316-324).
Returns `(dx, dy)`. -/
def leftPaddleCollide (p1_x paddle_width paddle_height : ℤ) (p1_y bx bY dx dy : ℚ) :
    ℚ × ℚ :=
  let ball_int_x := pyRound bx
  let ball_int_y := pyRound bY
  let p1_int_y := pyRound p1_y
  if ball_int_x ≤ p1_x + paddle_width ∧
      (p1_int_y ≤ ball_int_y ∧ ball_int_y ≤ p1_int_y + paddle_height - 1) ∧
      dx < 0 then
    let hit_pos : ℚ := ((ball_int_y - p1_int_y : ℤ) : ℚ) / ((paddle_height : ℚ) - 1)
    (|dx|, dy + (hit_pos - 1/2) * (1/2))
  else (dx, dy)

/-- The right-paddle collision of `update_ball` (pong.py lines 327-335).
Returns `(dx, dy)`. -/
def rightPaddleCollide (p2_x paddle_height : ℤ) (p2_y bx bY dx dy : ℚ) : ℚ × ℚ :=
  let ball_int_x := pyRound bx
  let ball_int_y := pyRound bY
  let p2_int_y := pyRound p2_y
  if p2_x - 1 ≤ ball_int_x ∧
      (p2_int_y ≤ ball_int_y ∧ ball_int_y ≤ p2_int_y + paddle_height - 1) ∧
      0 < dx then
    let hit_pos : ℚ := ((ball_int_y - p2_int_y : ℤ) : ℚ) / ((paddle_height : ℚ) - 1)
    (-|dx|, dy + (hit_pos - 1/2) * (1/2))
  else (dx, dy)

/-- The scoring tail of `update_ball` (pong.py lines 338-351), applied to
the state whose `ball_x` has already been integrated: `x < 0` scores for
Player 2 (right side), `x > width` for Player 1 (left side); on reaching
the target score the game ends with that player as winner, otherwise the
ball is reset. -/
def scoreStep (g : GameState) (now odx ody : ℚ) : GameState :=
  if g.ball_x < 0 then
    let g := { g with p2_score := g.p2_score + 1 }
    if g.target_score ≤ g.p2_score then
      { g with game_over := true, winner := some Player.P2 }
    else reset_ball g now odx ody
  else if (g.width : ℚ) < g.ball_x then
    let g := { g with p1_score := g.p1_score + 1 }
    if g.target_score ≤ g.p1_score then
      { g with game_over := true, winner := some Player.P1 }
    else reset_ball g now odx ody
  else g

/-- `PongGame.update_ball`: no-op unless the per-difficulty ball interval
has elapsed; otherwise integrate `position += velocity`, handle walls,
both paddle collisions, then scoring. -/
def update_ball (g : GameState) (now odx ody : ℚ) : GameState :=
  if now - g.last_ball_move < g.ball_speed then g
  else
    let g := { g with
      last_ball_move := now
      ball_x := g.ball_x + g.ball_dx
      ball_y := g.ball_y + g.ball_dy }
    let w := wallCollide g.height g.ball_y g.ball_dy
    let g := { g with ball_y := w.1, ball_dy := w.2 }
    let l := leftPaddleCollide g.p1_x g.paddle_width g.paddle_height g.p1_y
      g.ball_x g.ball_y g.ball_dx g.ball_dy
    let g := { g with ball_dx := l.1, ball_dy := l.2 }
    let r := rightPaddleCollide g.p2_x g.paddle_height g.p2_y
      g.ball_x g.ball_y g.ball_dx g.ball_dy
    let g := { g with ball_dx := r.1, ball_dy := r.2 }
    scoreStep g now odx ody

/-- The non-quit key events `handle_input` reacts to: `m`, `d`, `r`,
space, and the four movement keys. -/
inductive Cmd where
  | modeSwitch
  | cycleDiff
  | restartKey
  | pauseToggle
  | key (k : Key)
deriving DecidableEq

/-- The `last_key_time` dictionary lookup. -/
def lastTime (i : InputState) : Key → ℚ
  | .w => i.last_w
  | .s => i.last_s
  | .up => i.last_up
  | .down => i.last_down

/-- Store into the `last_key_time` dictionary. -/
def setLast (i : InputState) (k : Key) (t : ℚ) : InputState :=
  match k with
  | .w => { i with last_w := t }
  | .s => { i with last_s := t }
  | .up => { i with last_up := t }
  | .down => { i with last_down := t }

/-- Store into the `key_states` dictionary. -/
def setHeld (ks : KeyStates) (k : Key) (b : Bool) : KeyStates :=
  match k with
  | .w => { ks with w := b }
  | .s => { ks with s := b }
  | .up => { ks with up := b }
  | .down => { ks with down := b }

/-- Processing of one movement-key press event (pong.py lines 541-558):
mark the key held, clear its opposite-direction counterpart's held flag,
stamp `last_key_time`, and add the key to `continuous_keys`. -/
def pressMovementKey (i : InputState) (k : Key) (now : ℚ) : InputState :=
  let ks :=
    match k with
    | .w => { i.key_states with s := false, w := true }
    | .s => { i.key_states with w := false, s := true }
    | .up => { i.key_states with down := false, up := true }
    | .down => { i.key_states with up := false, down := true }
  let i := { i with key_states := ks }
  let i := setLast i k now
  { i with continuous_keys :=
      if k ∈ i.continuous_keys then i.continuous_keys
      else i.continuous_keys ++ [k] }

/-- One iteration of the timeout-based release loop of `handle_input`
(pong.py lines 563-570, `key_timeout = 0.08`): a key whose last press is
older than the timeout is released and removed from `continuous_keys`;
otherwise its held flag is (re)set to `True`. -/
def releaseCheck (now : ℚ) (i : InputState) (k : Key) : InputState :=
  if 2/25 < now - lastTime i k then
    { i with
      key_states := setHeld i.key_states k false
      continuous_keys := i.continuous_keys.erase k }
  else { i with key_states := setHeld i.key_states k true }

/-- The release loop of `handle_input`, iterating over a snapshot of
`continuous_keys` (Python: `for key_name in list(self.continuous_keys)`). -/
def releasePhase (i : InputState) (now : ℚ) : InputState :=
  i.continuous_keys.foldl (releaseCheck now) i

/-- `PongGame.cycle_difficulty`: advance the difficulty modulo 3 (the
`Fin 3` addition is exactly `(d + 1) % 3`), recompute the difficulty
settings, and reset the whole game unless it is over. -/
def cycle_difficulty (g : GameState) (now odx ody : ℚ) : GameState :=
  let g := update_difficulty_settings
    { g with current_difficulty := g.current_difficulty + 1 }
  if ¬g.game_over then reset_game g now odx ody else g

/-- Processing of one key event inside the drain loop of `handle_input`
(pong.py lines 512-558): `m` toggles the mode and resets unless the game
is over; `d` cycles the difficulty; during game over only `r` (restart)
acts; space toggles pause; movement keys update the input state. -/
def processKeyEvent (g : GameState) (inp : InputState) (c : Cmd)
    (now odx ody : ℚ) : GameState × InputState :=
  match c with
  | .modeSwitch =>
    let g := { g with single_player := ¬g.single_player }
    (if ¬g.game_over then reset_game g now odx ody else g, inp)
  | .cycleDiff => (cycle_difficulty g now odx ody, inp)
  | .restartKey => (if g.game_over then reset_game g now odx ody else g, inp)
  | .pauseToggle => (if g.game_over then g else { g with paused := ¬g.paused }, inp)
  | .key k => (g, if g.game_over then inp else pressMovementKey inp k now)

/-- `PongGame.handle_input` (except the quit key): drain the batch of key
events, run the timeout-release loop, then derive the movement-intent
flags from `key_states` (all cleared while paused or game over; player 2
flags cleared in single-player mode). -/
def handle_input (g : GameState) (inp : InputState) (cmds : List Cmd)
    (now odx ody : ℚ) : GameState × InputState :=
  let p := cmds.foldl (fun p c => processKeyEvent p.1 p.2 c now odx ody) (g, inp)
  let g := p.1
  let inp := releasePhase p.2 now
  let g :=
    if ¬g.game_over ∧ ¬g.paused then
      let g := { g with
        p1_moving_up := inp.key_states.w
        p1_moving_down := inp.key_states.s }
      if ¬g.single_player then
        { g with
          p2_moving_up := inp.key_states.up
          p2_moving_down := inp.key_states.down }
      else { g with p2_moving_up := false, p2_moving_down := false }
    else
      { g with
        p1_moving_up := false
        p1_moving_down := false
        p2_moving_up := false
        p2_moving_down := false }
  (g, inp)

/-- One iteration of `PongGame.run`: input handling, then (unless paused
or game over) the ball update and the AI update, then (same condition,
re-evaluated as in the code) the paddle-movement update. -/
def tick (g : GameState) (inp : InputState) (cmds : List Cmd)
    (now odx ody : ℚ) (noiseActive : Bool) (noise : ℚ) : GameState × InputState :=
  let p := handle_input g inp cmds now odx ody
  let g := p.1
  let g :=
    if ¬g.game_over ∧ ¬g.paused then
      update_ai_paddle (update_ball g now odx ody) now noiseActive noise
    else g
  let g :=
    if ¬g.game_over ∧ ¬g.paused then update_paddle_movement g now
    else g
  (g, p.2)

/-- The game state built by `PongGame.__init__`: target score 10,
single-player, Medium difficulty, then `reset_game` followed by
`update_difficulty_settings`. -/
def initGame (height width : ℤ) (now odx ody : ℚ) : GameState :=
  update_difficulty_settings (reset_game
    { height := height
      width := width
      target_score := 10
      single_player := true
      current_difficulty := 1
      ball_speed := 1/50
      ai_speed := 0
      ai_prediction := 0
      paddle_height := 5
      paddle_width := 1
      p1_y := 0
      p1_x := 2
      p1_score := 0
      p1_velocity := 0
      p2_y := 0
      p2_x := width - 3
      p2_score := 0
      p2_velocity := 0
      paddle_speed := 15
      paddle_acceleration := 50
      last_paddle_update := now
      p1_moving_up := false
      p1_moving_down := false
      p2_moving_up := false
      p2_moving_down := false
      ball_x := 0
      ball_y := 0
      ball_dx := 0
      ball_dy := 0
      last_ball_move := now
      game_over := false
      winner := none
      paused := false } now odx ody)

/-- The `key_states` dictionary as initialized in `__init__`: all four
keys released. -/
def initKeyStates : KeyStates :=
  { w := false, s := false, up := false, down := false }

/-- The input-tracking state as initialized in `__init__`: nothing held,
all timestamps zero (`defaultdict(float)`), empty `continuous_keys`. -/
def initInput : InputState :=
  { key_states := initKeyStates
    last_w := 0
    last_s := 0
    last_up := 0
    last_down := 0
    continuous_keys := [] }

/-- Helper: the paddle position set by `reset_game` lies inside the
clamping interval `[1, height - paddle_height - 1]` whenever the terminal
meets the minimum-size precondition (`height ≥ 20`). -/
theorem reset_paddle_in_interval (g : GameState) (now odx ody : ℚ)
    (hh : (20 : ℤ) ≤ g.height) :
    1 ≤ (reset_game g now odx ody).p1_y ∧
      (reset_game g now odx ody).p1_y ≤
        ((reset_game g now odx ody).height : ℚ) -
          ((reset_game g now odx ody).paddle_height : ℚ) - 1 ∧
    (reset_game g now odx ody).p2_y = (reset_game g now odx ody).p1_y := by
  have hb : (3 : ℤ) ≤ g.height.fdiv 2 - (5:ℤ).fdiv 2 ∧
      g.height.fdiv 2 - (5:ℤ).fdiv 2 ≤ g.height - 6 := by
    rw [Int.fdiv_eq_ediv _ (by norm_num), Int.fdiv_eq_ediv _ (by norm_num)]
    omega
  refine ⟨?_, ?_, rfl⟩
  · simp only [reset_game, reset_ball]
    have h1 : ((3 : ℤ) : ℚ) ≤ ((g.height.fdiv 2 - (5:ℤ).fdiv 2 : ℤ) : ℚ) :=
      Int.cast_le.mpr hb.1
    push_cast at h1 ⊢
    linarith
  · simp only [reset_game, reset_ball]
    have h2 : ((g.height.fdiv 2 - (5:ℤ).fdiv 2 : ℤ) : ℚ) ≤ ((g.height - 6 : ℤ) : ℚ) :=
      Int.cast_le.mpr hb.2
    push_cast at h2 ⊢
    linarith

/-- C1: every paddle-motion update keeps the paddle position inside
`[1, height - paddle_height - 1]` (given it starts there, as it does in
every reachable state since `reset_game` places it there — see
`reset_paddle_in_interval`), and whenever the proposed position
`y + v * dt` leaves that interval, the position is kept unchanged and the
velocity is set to exactly zero. -/
theorem C1_paddle_position_clamped (height paddle_height : ℤ) (y v dt : ℚ)
    (hy1 : 1 ≤ y) (hy2 : y ≤ (height : ℚ) - (paddle_height : ℚ) - 1) :
    (1 ≤ (updatePaddlePosition height paddle_height y v dt).1 ∧
      (updatePaddlePosition height paddle_height y v dt).1 ≤
        (height : ℚ) - (paddle_height : ℚ) - 1) ∧
    (¬(1 ≤ y + v * dt ∧ y + v * dt ≤ (height : ℚ) - (paddle_height : ℚ) - 1) →
      updatePaddlePosition height paddle_height y v dt = (y, 0)) := by
  unfold updatePaddlePosition
  dsimp only
  split_ifs with h
  · exact ⟨h, fun hc => absurd h hc⟩
  · exact ⟨⟨hy1, hy2⟩, fun _ => rfl⟩

/-- Witness for C1 at a concrete in-range state whose proposed update
(`10 + 100 * 1 = 110`) leaves the interval of a 24-row field. -/
theorem C1_paddle_position_clamped_witness :
    ((1 : ℚ) ≤ 10 ∧ (10 : ℚ) ≤ ((24 : ℤ) : ℚ) - ((5 : ℤ) : ℚ) - 1) ∧
    (1 ≤ (updatePaddlePosition 24 5 10 100 1).1 ∧
      (updatePaddlePosition 24 5 10 100 1).1 ≤ ((24 : ℤ) : ℚ) - ((5 : ℤ) : ℚ) - 1) ∧
    updatePaddlePosition 24 5 10 100 1 = (10, 0) := by
  have h := C1_paddle_position_clamped 24 5 10 100 1 (by norm_num) (by norm_num)
  exact ⟨⟨by norm_num, by norm_num⟩, h.1, h.2 (by norm_num)⟩

/-- C2: for a 20-row-or-taller field, whenever the integrated ball `y`
satisfies `y ≤ 1` or `y ≥ height - 2`, the wall handling negates `dy`
exactly once and clamps `y` into `[2, height - 3]`; for `y` strictly
inside `(1, height - 2)` it changes nothing. -/
theorem C2_wall_collision (height : ℤ) (y dy : ℚ) (hh : (20 : ℤ) ≤ height) :
    ((y ≤ 1 ∨ (height : ℚ) - 2 ≤ y) →
      (wallCollide height y dy).2 = -dy ∧
      2 ≤ (wallCollide height y dy).1 ∧
      (wallCollide height y dy).1 ≤ (height : ℚ) - 3) ∧
    ((1 < y ∧ y < (height : ℚ) - 2) → wallCollide height y dy = (y, dy)) := by
  have hq : (20 : ℚ) ≤ (height : ℚ) := by exact_mod_cast hh
  unfold wallCollide
  split_ifs with h
  · refine ⟨fun _ => ⟨rfl, le_max_left _ _, ?_⟩, fun hc => ?_⟩
    · exact max_le (by linarith) (min_le_right _ _)
    · rcases h with h | h <;> linarith [hc.1, hc.2]
  · exact ⟨fun hc => absurd hc (by push_neg at h ⊢; exact ⟨by linarith [h.1], by linarith [h.2]⟩), fun _ => rfl⟩

/-- Witness for C2 at `height = 24`, `y = 0` (wall hit, clamped to 2) and
`y = 12` (no wall interaction). -/
theorem C2_wall_collision_witness :
    ((wallCollide 24 0 1).2 = -1 ∧ 2 ≤ (wallCollide 24 0 1).1 ∧
      (wallCollide 24 0 1).1 ≤ ((24 : ℤ) : ℚ) - 3) ∧
    wallCollide 24 12 1 = (12, 1) := by
  refine ⟨?_, ?_⟩
  · exact (C2_wall_collision 24 0 1 (by norm_num)).1 (Or.inl (by norm_num))
  · exact (C2_wall_collision 24 12 1 (by norm_num)).2 (by norm_num)

/-- C3: paddle-hit deflection.  Under the left-paddle trigger (rounded
ball x within the paddle's x-band, rounded ball y within the paddle's
vertical span, ball moving left), `dx` becomes `|dx| > 0` and
`dy` gains `(hit_pos - 0.5) * 0.5` where
`hit_pos = (ball_int_y - p1_int_y) / (paddle_height - 1) ∈ [0, 1]`;
a center hit (`hit_pos = 1/2`) leaves `dy` unchanged and edge hits
(`hit_pos = 0` or `1`) change it by exactly `-1/4` resp. `+1/4`; a ball
moving away from the paddle is never deflected.  Mirror statements for
the right paddle. -/
theorem C3_paddle_deflection (p1x pw ph p2x : ℤ) (p1y p2y bx bY dx dy : ℚ)
    (hph : (2 : ℤ) ≤ ph) :
    ((pyRound bx ≤ p1x + pw ∧
        (pyRound p1y ≤ pyRound bY ∧ pyRound bY ≤ pyRound p1y + ph - 1) ∧ dx < 0) →
      leftPaddleCollide p1x pw ph p1y bx bY dx dy =
        (|dx|, dy + (((pyRound bY - pyRound p1y : ℤ) : ℚ) / ((ph : ℚ) - 1) - 1/2) * (1/2)) ∧
      0 < |dx| ∧
      0 ≤ ((pyRound bY - pyRound p1y : ℤ) : ℚ) / ((ph : ℚ) - 1) ∧
      ((pyRound bY - pyRound p1y : ℤ) : ℚ) / ((ph : ℚ) - 1) ≤ 1 ∧
      (((pyRound bY - pyRound p1y : ℤ) : ℚ) / ((ph : ℚ) - 1) = 1/2 →
        (leftPaddleCollide p1x pw ph p1y bx bY dx dy).2 = dy) ∧
      (((pyRound bY - pyRound p1y : ℤ) : ℚ) / ((ph : ℚ) - 1) = 0 →
        (leftPaddleCollide p1x pw ph p1y bx bY dx dy).2 = dy - 1/4) ∧
      (((pyRound bY - pyRound p1y : ℤ) : ℚ) / ((ph : ℚ) - 1) = 1 →
        (leftPaddleCollide p1x pw ph p1y bx bY dx dy).2 = dy + 1/4)) ∧
    (0 ≤ dx → leftPaddleCollide p1x pw ph p1y bx bY dx dy = (dx, dy)) ∧
    ((p2x - 1 ≤ pyRound bx ∧
        (pyRound p2y ≤ pyRound bY ∧ pyRound bY ≤ pyRound p2y + ph - 1) ∧ 0 < dx) →
      rightPaddleCollide p2x ph p2y bx bY dx dy =
        (-|dx|, dy + (((pyRound bY - pyRound p2y : ℤ) : ℚ) / ((ph : ℚ) - 1) - 1/2) * (1/2)) ∧
      -|dx| < 0) ∧
    (dx ≤ 0 → rightPaddleCollide p2x ph p2y bx bY dx dy = (dx, dy)) := by
  have hph1 : (0 : ℚ) < (ph : ℚ) - 1 := by
    have : (2 : ℚ) ≤ (ph : ℚ) := by exact_mod_cast hph
    linarith
  refine ⟨fun h => ?_, fun h => ?_, fun h => ?_, fun h => ?_⟩
  · have heq : leftPaddleCollide p1x pw ph p1y bx bY dx dy =
        (|dx|, dy + (((pyRound bY - pyRound p1y : ℤ) : ℚ) / ((ph : ℚ) - 1) - 1/2) * (1/2)) := by
      unfold leftPaddleCollide
      dsimp only
      rw [if_pos h]
    have h0 : (0 : ℚ) ≤ ((pyRound bY - pyRound p1y : ℤ) : ℚ) :=
      by exact_mod_cast sub_nonneg.mpr h.2.1.1
    have h1 : ((pyRound bY - pyRound p1y : ℤ) : ℚ) ≤ (ph : ℚ) - 1 := by
      have : pyRound bY - pyRound p1y ≤ ph - 1 := by omega
      exact_mod_cast this
    refine ⟨heq, abs_pos.mpr (ne_of_lt h.2.2), div_nonneg h0 (le_of_lt hph1),
      (div_le_one hph1).mpr h1, fun hc => ?_, fun hc => ?_, fun hc => ?_⟩
    · rw [heq, hc]; ring
    · rw [heq, hc]; ring
    · rw [heq, hc]; ring
  · unfold leftPaddleCollide
    dsimp only
    rw [if_neg]
    intro hc
    exact absurd hc.2.2 (not_lt.mpr h)
  · have heq : rightPaddleCollide p2x ph p2y bx bY dx dy =
        (-|dx|, dy + (((pyRound bY - pyRound p2y : ℤ) : ℚ) / ((ph : ℚ) - 1) - 1/2) * (1/2)) := by
      unfold rightPaddleCollide
      dsimp only
      rw [if_pos h]
    exact ⟨heq, neg_neg_iff_pos.mpr (abs_pos.mpr (ne_of_gt h.2.2))⟩
  · unfold rightPaddleCollide
    dsimp only
    rw [if_neg]
    intro hc
    exact absurd hc.2.2 (not_lt.mpr h)

/-- Witness for C3: 5-row paddle at `p1_y = 10`, ball at rounded
position `(3, 12)` moving left — a dead-center hit: `dx` flips to `+1`
and `dy` is unchanged; the mirrored right paddle at `x = 77` ignores the
leftward ball. -/
theorem C3_paddle_deflection_witness :
    leftPaddleCollide 2 1 5 10 3 12 (-1) 0 = (1, 0) ∧
    rightPaddleCollide 77 5 10 3 12 (-1) 0 = (-1, 0) := by
  have h := C3_paddle_deflection 2 1 5 77 10 10 3 12 (-1) 0 (by norm_num)
  have hhit : pyRound 3 ≤ 2 + 1 ∧
      (pyRound 10 ≤ pyRound 12 ∧ pyRound 12 ≤ pyRound 10 + 5 - 1) ∧ (-1 : ℚ) < 0 := by
    norm_num [pyRound]
  constructor
  · have h1 := (h.1 hhit).1
    rw [h1]
    norm_num [pyRound]
  · exact h.2.2.2 (by norm_num)

/-- C4: scoring.  After integration, `ball_x < 0` increments the right
player's (Player 2's) score by exactly 1, leaving the other score
unchanged; if the new total reaches the target the game ends with
Player 2 as winner, otherwise the ball is reset to the field center.
Symmetric for `ball_x > width` and Player 1.  A ball with
`0 ≤ ball_x ≤ width` changes neither score. -/
theorem C4_scoring (g : GameState) (now odx ody : ℚ) (hw : (0 : ℤ) ≤ g.width) :
    (g.ball_x < 0 →
      (scoreStep g now odx ody).p2_score = g.p2_score + 1 ∧
      (scoreStep g now odx ody).p1_score = g.p1_score ∧
      (g.target_score ≤ g.p2_score + 1 →
        (scoreStep g now odx ody).game_over = true ∧
        (scoreStep g now odx ody).winner = some Player.P2) ∧
      (g.p2_score + 1 < g.target_score →
        (scoreStep g now odx ody).game_over = g.game_over ∧
        (scoreStep g now odx ody).winner = g.winner ∧
        (scoreStep g now odx ody).ball_x = ((g.width.fdiv 2 : ℤ) : ℚ) ∧
        (scoreStep g now odx ody).ball_y = ((g.height.fdiv 2 : ℤ) : ℚ))) ∧
    ((g.width : ℚ) < g.ball_x →
      (scoreStep g now odx ody).p1_score = g.p1_score + 1 ∧
      (scoreStep g now odx ody).p2_score = g.p2_score ∧
      (g.target_score ≤ g.p1_score + 1 →
        (scoreStep g now odx ody).game_over = true ∧
        (scoreStep g now odx ody).winner = some Player.P1) ∧
      (g.p1_score + 1 < g.target_score →
        (scoreStep g now odx ody).game_over = g.game_over ∧
        (scoreStep g now odx ody).winner = g.winner ∧
        (scoreStep g now odx ody).ball_x = ((g.width.fdiv 2 : ℤ) : ℚ) ∧
        (scoreStep g now odx ody).ball_y = ((g.height.fdiv 2 : ℤ) : ℚ))) ∧
    (0 ≤ g.ball_x → g.ball_x ≤ (g.width : ℚ) →
      (scoreStep g now odx ody).p1_score = g.p1_score ∧
      (scoreStep g now odx ody).p2_score = g.p2_score) := by
  have hwq : (0 : ℚ) ≤ (g.width : ℚ) := by exact_mod_cast hw
  unfold scoreStep reset_ball
  dsimp only
  refine ⟨fun hx => ?_, fun hx => ?_, fun hx1 hx2 => ?_⟩
  · rw [if_pos hx]
    split_ifs with h2
    · exact ⟨rfl, rfl, fun _ => ⟨rfl, rfl⟩, fun hc => absurd h2 (by omega)⟩
    · exact ⟨rfl, rfl, fun hc => absurd hc h2, fun _ => ⟨rfl, rfl, rfl, rfl⟩⟩
  · rw [if_neg (not_lt.mpr (by linarith)), if_pos hx]
    split_ifs with h2
    · exact ⟨rfl, rfl, fun _ => ⟨rfl, rfl⟩, fun hc => absurd h2 (by omega)⟩
    · exact ⟨rfl, rfl, fun hc => absurd hc h2, fun _ => ⟨rfl, rfl, rfl, rfl⟩⟩
  · rw [if_neg (not_lt.mpr hx1), if_neg (not_lt.mpr hx2)]
    exact ⟨rfl, rfl⟩

/-- A concrete mid-rally two-player game state on an 80×24 field, used to
instantiate the universally quantified theorems. -/
def exampleState : GameState :=
  { height := 24
    width := 80
    target_score := 10
    single_player := false
    current_difficulty := 1
    ball_speed := 1/50
    ai_speed := 16/25
    ai_prediction := 6/25
    paddle_height := 5
    paddle_width := 1
    p1_y := 10
    p1_x := 2
    p1_score := 0
    p1_velocity := 0
    p2_y := 10
    p2_x := 77
    p2_score := 0
    p2_velocity := 0
    paddle_speed := 15
    paddle_acceleration := 50
    last_paddle_update := 0
    p1_moving_up := false
    p1_moving_down := false
    p2_moving_up := false
    p2_moving_down := false
    ball_x := 40
    ball_y := 12
    ball_dx := 1
    ball_dy := 0
    last_ball_move := 0
    game_over := false
    winner := none
    paused := false }

/-- Witness for C4: from `exampleState` with the ball at `x = -1`,
Player 2 scores their first point and the ball is reset to `(40, 12)`. -/
theorem C4_scoring_witness :
    (scoreStep { exampleState with ball_x := -1 } 0 1 1).p2_score = 1 ∧
    (scoreStep { exampleState with ball_x := -1 } 0 1 1).p1_score = 0 ∧
    (scoreStep { exampleState with ball_x := -1 } 0 1 1).ball_x = 40 := by
  have h := (C4_scoring { exampleState with ball_x := -1 } 0 1 1
    (by norm_num [exampleState])).1 (by norm_num [exampleState])
  refine ⟨?_, ?_, ?_⟩
  · rw [h.1]
    norm_num [exampleState]
  · rw [h.2.1]
    norm_num [exampleState]
  · rw [(h.2.2.2 (by norm_num [exampleState])).2.2.1]
    norm_num [exampleState, show Int.fdiv 80 2 = 40 from rfl]

/-- Iterated player-1 velocity updates of `update_paddle_movement` with
constant downward intent (`target_velocity = +paddle_speed = 15`,
`paddle_acceleration = 50`) over a list of per-frame time steps. -/
def velocityRun (dts : List ℚ) (v : ℚ) : ℚ :=
  dts.foldl (fun w d => updatePaddleVelocity 50 15 w d) v

/-- Helper: closed form of one velocity step toward target `15` with
acceleration `50`, from a velocity in `[0, 15]`: snap to the target when
the gap is at most `0.1`, otherwise advance by `50 * dt` clamped at the
target. -/
theorem velocity_step_closed (v dt : ℚ) (hv : v ≤ 15) :
    updatePaddleVelocity 50 15 v dt =
      (if 15 - v ≤ 1/10 then 15 else min (v + 50 * dt) 15) := by
  unfold updatePaddleVelocity
  dsimp only
  rw [abs_of_nonneg (by linarith : (0:ℚ) ≤ 15 - v)]
  rcases le_or_lt (15 - v) (1/10) with hsnap | hacc
  · rw [if_neg (not_lt.mpr hsnap), if_pos hsnap]
  · rw [if_pos hacc, if_pos (by linarith : (0:ℚ) < 15 - v), mul_one,
      if_neg (not_le.mpr hacc)]
    rcases le_or_lt (v + 50 * dt) 15 with hc | hc
    · rw [if_neg, min_eq_left hc]
      rintro (⟨_, h⟩ | ⟨h, _⟩) <;> linarith
    · rw [if_pos (Or.inl ⟨by linarith, hc⟩), min_eq_right (le_of_lt hc)]

/-- Helper: one velocity step from `[0, 15]` stays in `[0, 15]` and makes
at least `50 * dt` of progress toward the target (or reaches it). -/
theorem velocity_step_bounds (v dt : ℚ) (hv0 : 0 ≤ v) (hv : v ≤ 15) (hdt : 0 ≤ dt) :
    0 ≤ updatePaddleVelocity 50 15 v dt ∧ updatePaddleVelocity 50 15 v dt ≤ 15 ∧
    min 15 (v + 50 * dt) ≤ updatePaddleVelocity 50 15 v dt := by
  rw [velocity_step_closed v dt hv]
  split_ifs with h
  · exact ⟨by norm_num, le_refl _, min_le_left _ _⟩
  · refine ⟨le_min (by linarith) (by norm_num), min_le_right _ _, ?_⟩
    rw [min_comm]

/-- Helper: a run of velocity steps from `[0, 15]` never exceeds `15` and
reaches at least `min 15 (v + 50 * total elapsed time)`. -/
theorem velocityRun_bounds (dts : List ℚ) : ∀ v : ℚ, 0 ≤ v → v ≤ 15 →
    (∀ d ∈ dts, 0 ≤ d) →
    velocityRun dts v ≤ 15 ∧ min 15 (v + 50 * dts.sum) ≤ velocityRun dts v := by
  induction dts with
  | nil =>
    intro v h0 h15 _
    refine ⟨h15, ?_⟩
    simp only [velocityRun, List.foldl_nil, List.sum_nil, mul_zero, add_zero]
    exact min_le_right _ _
  | cons d rest ih =>
    intro v h0 h15 hmem
    have hd : 0 ≤ d := hmem d (List.mem_cons_self _ _)
    have hrest : ∀ x ∈ rest, 0 ≤ x := fun x hx => hmem x (List.mem_cons_of_mem _ hx)
    have hstep := velocity_step_bounds v d h0 h15 hd
    have hrun : velocityRun (d :: rest) v =
        velocityRun rest (updatePaddleVelocity 50 15 v d) := rfl
    rw [hrun]
    obtain ⟨ih1, ih2⟩ := ih (updatePaddleVelocity 50 15 v d) hstep.1 hstep.2.1 hrest
    refine ⟨ih1, ?_⟩
    rw [List.sum_cons]
    have hs : 0 ≤ rest.sum := List.sum_nonneg hrest
    refine le_trans ?_ ih2
    apply le_min (min_le_left _ _)
    rcases le_or_lt 15 (v + 50 * d) with hc | hc
    · have h15' : (15:ℚ) ≤ updatePaddleVelocity 50 15 v d := by
        rw [min_eq_left hc] at hstep
        exact hstep.2.2
      calc min 15 (v + 50 * (d + rest.sum)) ≤ 15 := min_le_left _ _
        _ ≤ updatePaddleVelocity 50 15 v d + 50 * rest.sum := by linarith
    · have hle : v + 50 * d ≤ updatePaddleVelocity 50 15 v d := by
        rw [min_eq_right (le_of_lt hc)] at hstep
        exact hstep.2.2
      calc min 15 (v + 50 * (d + rest.sum)) ≤ v + 50 * (d + rest.sum) := min_le_right _ _
        _ ≤ updatePaddleVelocity 50 15 v d + 50 * rest.sum := by linarith

/-- C6: with `paddle_speed = 15` and `paddle_acceleration = 50` and
constant downward intent, each velocity step from `[0, 15]` moves toward
the target by `50 * dt`, clamped exactly to the target on overshoot or
once the remaining gap is at most `0.1`; the velocity never exceeds the
target; and any run of nonnegative steps totalling one second of elapsed
time ends with velocity exactly `+15`. -/
theorem C6_velocity_ramp (v dt : ℚ) (hv0 : 0 ≤ v) (hv : v ≤ 15) (hdt : 0 ≤ dt) :
    updatePaddleVelocity 50 15 v dt =
      (if 15 - v ≤ 1/10 then 15 else min (v + 50 * dt) 15) ∧
    updatePaddleVelocity 50 15 v dt ≤ 15 ∧
    (∀ dts : List ℚ, (∀ d ∈ dts, 0 ≤ d) → dts.sum = 1 → velocityRun dts 0 = 15) := by
  refine ⟨velocity_step_closed v dt hv,
    (velocity_step_bounds v dt hv0 hv hdt).2.1, fun dts hmem hsum => ?_⟩
  obtain ⟨h15, hge⟩ := velocityRun_bounds dts 0 le_rfl (by norm_num) hmem
  rw [hsum] at hge
  norm_num at hge
  exact le_antisymm h15 hge

/-- Witness for C6: sixty 60fps frames (one second) of held Down reach
velocity exactly `+15`, and a single step from rest advances by
`50 * (1/60)`. -/
theorem C6_velocity_ramp_witness :
    velocityRun (List.replicate 60 ((1:ℚ)/60)) 0 = 15 ∧
    updatePaddleVelocity 50 15 0 (1/60) = 5/6 := by
  have h := C6_velocity_ramp 0 (1/60) le_rfl (by norm_num) (by norm_num)
  constructor
  · refine h.2.2 _ ?_ ?_
    · intro d hd
      rw [List.eq_of_mem_replicate hd]
      norm_num
    · rw [List.sum_replicate, nsmul_eq_mul]
      norm_num
  · rw [h.1]
    norm_num

/-- The `difficulty_speed_multipliers` list `[0.8, 1.0, 1.4]` of
`reset_ball`. -/
noncomputable def difficulty_speed_multipliers : Fin 3 → ℝ
  | 0 => 4/5
  | 1 => 1
  | 2 => 7/5

/-- The random direction/speed draw of `PongGame.reset_ball` over the
reals: an angle `angle0` drawn from `[-π/4, π/4]`, a fair coin `flip`
that adds `π` to make the ball start leftward, and the speed
`base_speed * difficulty_speed_multipliers[difficulty]` with
`base_speed = 2.0`, decomposed into `(dx, dy)` by cosine/sine. -/
noncomputable def reset_ball_velocity (d : Fin 3) (angle0 : ℝ) (flip : Bool) :
    ℝ × ℝ :=
  let angle := if flip then angle0 + Real.pi else angle0
  let speed := 2 * difficulty_speed_multipliers d
  (speed * Real.cos angle, speed * Real.sin angle)

/-- Helper: within `[-π/4, π/4]` the sine is no larger than the cosine in
absolute value. -/
theorem abs_sin_le_abs_cos {θ : ℝ} (h : |θ| ≤ Real.pi / 4) :
    |Real.sin θ| ≤ |Real.cos θ| := by
  have hpi := Real.pi_pos
  obtain ⟨h1, h2⟩ := abs_le.mp h
  have hcos2 : 0 ≤ Real.cos (2 * θ) := by
    apply Real.cos_nonneg_of_mem_Icc
    exact Set.mem_Icc.mpr ⟨by linarith, by linarith⟩
  have hid : Real.cos (2 * θ) = 2 * Real.cos θ ^ 2 - 1 := Real.cos_two_mul θ
  have hsc : Real.sin θ ^ 2 + Real.cos θ ^ 2 = 1 := Real.sin_sq_add_cos_sq θ
  nlinarith [sq_abs (Real.sin θ), sq_abs (Real.cos θ), abs_nonneg (Real.sin θ),
    abs_nonneg (Real.cos θ)]

/-- Helper: each ball speed multiplier is positive. -/
theorem difficulty_speed_multipliers_pos (d : Fin 3) :
    0 < difficulty_speed_multipliers d := by
  fin_cases d <;> norm_num [difficulty_speed_multipliers]

/-- C5: for every difficulty and every draw (angle within `[-45°, 45°]`,
independent coin for the horizontal direction), `reset_ball` places the
ball exactly at the field center, and the drawn velocity has magnitude
`√(dx² + dy²)` exactly `base_speed * difficultyMultiplier = 2 * mult` and
satisfies `|dy| ≤ |dx|` (that is, at most 45° from the horizontal). -/
theorem C5_reset_ball_distribution (g : GameState) (now odx ody : ℚ)
    (d : Fin 3) (angle0 : ℝ) (flip : Bool) (hangle : |angle0| ≤ Real.pi / 4) :
    (reset_ball g now odx ody).ball_x = ((g.width.fdiv 2 : ℤ) : ℚ) ∧
    (reset_ball g now odx ody).ball_y = ((g.height.fdiv 2 : ℤ) : ℚ) ∧
    Real.sqrt ((reset_ball_velocity d angle0 flip).1 ^ 2 +
        (reset_ball_velocity d angle0 flip).2 ^ 2) =
      2 * difficulty_speed_multipliers d ∧
    |(reset_ball_velocity d angle0 flip).2| ≤ |(reset_ball_velocity d angle0 flip).1| := by
  have hs : (0:ℝ) < 2 * difficulty_speed_multipliers d := by
    have := difficulty_speed_multipliers_pos d
    linarith
  have habs : ∀ ψ : ℝ, |Real.sin ψ| ≤ |Real.cos ψ| →
      Real.sqrt ((2 * difficulty_speed_multipliers d * Real.cos ψ) ^ 2 +
          (2 * difficulty_speed_multipliers d * Real.sin ψ) ^ 2) =
        2 * difficulty_speed_multipliers d ∧
      |2 * difficulty_speed_multipliers d * Real.sin ψ| ≤
        |2 * difficulty_speed_multipliers d * Real.cos ψ| := by
    intro ψ hψ
    constructor
    · have h1 : (2 * difficulty_speed_multipliers d * Real.cos ψ) ^ 2 +
          (2 * difficulty_speed_multipliers d * Real.sin ψ) ^ 2 =
          (2 * difficulty_speed_multipliers d) ^ 2 *
            (Real.sin ψ ^ 2 + Real.cos ψ ^ 2) := by ring
      rw [h1, Real.sin_sq_add_cos_sq, mul_one, Real.sqrt_sq (le_of_lt hs)]
    · rw [abs_mul (2 * difficulty_speed_multipliers d) (Real.sin ψ),
        abs_mul (2 * difficulty_speed_multipliers d) (Real.cos ψ)]
      exact mul_le_mul_of_nonneg_left hψ (abs_nonneg _)
  refine ⟨rfl, rfl, ?_⟩
  cases flip with
  | false =>
    simpa only [reset_ball_velocity, if_neg (by simp : ¬(false = true))] using
      habs angle0 (abs_sin_le_abs_cos hangle)
  | true =>
    have hsin : Real.sin (angle0 + Real.pi) = -Real.sin angle0 := by
      rw [Real.sin_add, Real.cos_pi, Real.sin_pi]
      ring
    have hcos : Real.cos (angle0 + Real.pi) = -Real.cos angle0 := by
      rw [Real.cos_add, Real.cos_pi, Real.sin_pi]
      ring
    have h := habs (angle0 + Real.pi) (by
      rw [hsin, hcos, abs_neg, abs_neg]
      exact abs_sin_le_abs_cos hangle)
    simpa only [reset_ball_velocity, if_pos rfl] using h

/-- Witness for C5 at Medium difficulty, angle `0`, no flip: the velocity
is horizontal with magnitude `2`, and the ball is recentered to
`x = 80 // 2 = 40` on the example field. -/
theorem C5_reset_ball_distribution_witness :
    (|(0:ℝ)| ≤ Real.pi / 4) ∧
    Real.sqrt ((reset_ball_velocity 1 0 false).1 ^ 2 +
        (reset_ball_velocity 1 0 false).2 ^ 2) =
      2 * difficulty_speed_multipliers 1 ∧
    (reset_ball exampleState 0 2 0).ball_x = 40 := by
  have h0 : |(0:ℝ)| ≤ Real.pi / 4 := by
    rw [abs_zero]
    positivity
  have h := C5_reset_ball_distribution exampleState 0 2 0 1 0 false h0
  refine ⟨h0, h.2.2.1, ?_⟩
  rw [h.1]
  norm_num [exampleState, show Int.fdiv 80 2 = 40 from rfl]

/-- C7 (failing input): one input-handling tick that drains the two press
events `W` then `S` at the same timestamp.  The press of `S` clears the
held flag of `w` (pong.py line 547, `# Can't move both directions`), but
`w` is still in `continuous_keys` with a fresh timestamp, so the
timeout-release loop (lines 563-570) immediately re-marks it held: the
tick ends with BOTH `w` and `s` held and both movement intents set,
contradicting the mutual-exclusion the code itself documents. -/
theorem C7_opposite_keys_both_held :
    (handle_input exampleState initInput [Cmd.key Key.w, Cmd.key Key.s] 0 0 0).2.key_states.w = true ∧
    (handle_input exampleState initInput [Cmd.key Key.w, Cmd.key Key.s] 0 0 0).2.key_states.s = true ∧
    (handle_input exampleState initInput [Cmd.key Key.w, Cmd.key Key.s] 0 0 0).1.p1_moving_up = true ∧
    (handle_input exampleState initInput [Cmd.key Key.w, Cmd.key Key.s] 0 0 0).1.p1_moving_down = true := by
  norm_num [handle_input, processKeyEvent, pressMovementKey, releasePhase, releaseCheck,
    setLast, lastTime, setHeld, initInput, initKeyStates, exampleState, List.foldl]

/-- A run of `run`-loop iterations, each given its key-event batch and
wall-clock time (oracles fixed: reset draw `(0, 0)`, no AI noise; the AI
is inert anyway in the two-player scenarios this is applied to). -/
def runSchedule (g : GameState) (inp : InputState) (steps : List (List Cmd × ℚ)) :
    GameState × InputState :=
  steps.foldl (fun p st => tick p.1 p.2 st.1 st.2 0 0 false 0) (g, inp)

set_option maxHeartbeats 1600000 in
/-- C8 (counterexample): from `exampleState` (two-player, ball moving
right at one cell per ball tick), running two ticks at times 1 and 2 with
a pause toggled on at the first tick and off again at the second leaves
the ball at `x = 41`, while the identical schedule without the pause pair
leaves it at `x = 42`: the pause pair does NOT leave the subsequent
trajectory identical to the no-pause trajectory, because the ball updates
skipped while paused are never replayed. -/
theorem C8_pause_changes_trajectory :
    (runSchedule exampleState initInput
        [([Cmd.pauseToggle], 1), ([Cmd.pauseToggle], 2)]).1.ball_x ≠
      (runSchedule exampleState initInput
        [([], 1), ([], 2)]).1.ball_x := by
  norm_num [runSchedule, tick, handle_input, processKeyEvent, releasePhase,
    update_ball, update_ai_paddle, update_paddle_movement, updatePaddleVelocity,
    updatePaddlePosition, wallCollide, leftPaddleCollide, rightPaddleCollide,
    scoreStep, reset_ball, pyRound, exampleState, initInput, List.foldl,
    min_def, abs_zero]

/-- Helper: movement-key events never touch the game state inside the
event-drain loop (they only update the input state). -/
theorem foldl_key_events_fst (cmds : List Cmd) :
    ∀ (p : GameState × InputState) (now odx ody : ℚ),
      (∀ c ∈ cmds, ∃ k, c = Cmd.key k) →
      (cmds.foldl (fun p c => processKeyEvent p.1 p.2 c now odx ody) p).1 = p.1 := by
  induction cmds with
  | nil =>
    intro p now odx ody _
    rfl
  | cons c rest ih =>
    intro p now odx ody h
    obtain ⟨k, hk⟩ := h c (List.mem_cons_self _ _)
    subst hk
    rw [List.foldl_cons, ih _ now odx ody (fun c hc => h c (List.mem_cons_of_mem _ hc))]
    cases hgo : p.1.game_over <;> rfl

/-- Helper: on a paused, not-game-over state, input handling with only
movement-key events leaves the game state unchanged except for clearing
the four movement-intent flags. -/
theorem handle_input_paused (g : GameState) (inp : InputState) (cmds : List Cmd)
    (now odx ody : ℚ) (hp : g.paused = true)
    (hcmds : ∀ c ∈ cmds, ∃ k, c = Cmd.key k) :
    (handle_input g inp cmds now odx ody).1 =
      { g with
        p1_moving_up := false
        p1_moving_down := false
        p2_moving_up := false
        p2_moving_down := false } := by
  unfold handle_input
  dsimp only
  simp only [foldl_key_events_fst cmds (g, inp) now odx ody hcmds]
  simp [hp]

/-- C8 (amended): while the game is paused, a `run`-loop tick whose input
batch contains only movement keys changes none of the motion state — both
paddles' positions and velocities and the whole ball state are exactly
frozen, and the game stays paused.  (By `C8_pause_changes_trajectory` the
original claim is false: the post-unpause trajectory is NOT identical to
the no-pause trajectory, since updates skipped while paused are never
replayed and the first paddle step after unpausing integrates a wall-clock
dt capped at 0.1 s.) -/
theorem C8_paused_tick_frozen (g : GameState) (inp : InputState) (cmds : List Cmd)
    (now odx ody : ℚ) (na : Bool) (nz : ℚ) (hp : g.paused = true)
    (hcmds : ∀ c ∈ cmds, ∃ k, c = Cmd.key k) :
    (tick g inp cmds now odx ody na nz).1.p1_y = g.p1_y ∧
    (tick g inp cmds now odx ody na nz).1.p1_velocity = g.p1_velocity ∧
    (tick g inp cmds now odx ody na nz).1.p2_y = g.p2_y ∧
    (tick g inp cmds now odx ody na nz).1.p2_velocity = g.p2_velocity ∧
    (tick g inp cmds now odx ody na nz).1.ball_x = g.ball_x ∧
    (tick g inp cmds now odx ody na nz).1.ball_y = g.ball_y ∧
    (tick g inp cmds now odx ody na nz).1.ball_dx = g.ball_dx ∧
    (tick g inp cmds now odx ody na nz).1.ball_dy = g.ball_dy ∧
    (tick g inp cmds now odx ody na nz).1.paused = true := by
  unfold tick
  dsimp only
  simp only [handle_input_paused g inp cmds now odx ody hp hcmds]
  simp [hp]

/-- Witness for C8 (amended): a paused tick on the example state at time
1 keeps the ball at `x = 40` and stays paused. -/
theorem C8_paused_tick_frozen_witness :
    (tick { exampleState with paused := true } initInput [] 1 0 0 false 0).1.ball_x = 40 ∧
    (tick { exampleState with paused := true } initInput [] 1 0 0 false 0).1.paused = true := by
  have h := C8_paused_tick_frozen { exampleState with paused := true } initInput []
    1 0 0 false 0 rfl (fun c hc => absurd hc (List.not_mem_nil c))
  refine ⟨?_, h.2.2.2.2.2.2.2.2⟩
  rw [h.2.2.2.2.1]
  norm_num [exampleState]

/-- C9: mode switch and difficulty cycle outside GameOver force a full
reset (scores zeroed, paddles recentered with zero velocity, ball
recentered — no partial score carries over), while during GameOver they
change only the mode resp. only the difficulty and its derived settings;
a difficulty cycle recomputes the ball interval and the AI multipliers
immediately in either case. -/
theorem C9_mode_difficulty_reset (g : GameState) (inp : InputState) (now odx ody : ℚ) :
    (g.game_over = false →
      (processKeyEvent g inp Cmd.modeSwitch now odx ody).1.p1_score = 0 ∧
      (processKeyEvent g inp Cmd.modeSwitch now odx ody).1.p2_score = 0 ∧
      (processKeyEvent g inp Cmd.modeSwitch now odx ody).1.p1_y =
        ((g.height.fdiv 2 - (5:ℤ).fdiv 2 : ℤ) : ℚ) ∧
      (processKeyEvent g inp Cmd.modeSwitch now odx ody).1.p2_y =
        ((g.height.fdiv 2 - (5:ℤ).fdiv 2 : ℤ) : ℚ) ∧
      (processKeyEvent g inp Cmd.modeSwitch now odx ody).1.p1_velocity = 0 ∧
      (processKeyEvent g inp Cmd.modeSwitch now odx ody).1.p2_velocity = 0 ∧
      (processKeyEvent g inp Cmd.modeSwitch now odx ody).1.ball_x =
        ((g.width.fdiv 2 : ℤ) : ℚ) ∧
      (processKeyEvent g inp Cmd.modeSwitch now odx ody).1.ball_y =
        ((g.height.fdiv 2 : ℤ) : ℚ) ∧
      (processKeyEvent g inp Cmd.modeSwitch now odx ody).1.single_player =
        !g.single_player) ∧
    (g.game_over = false →
      (processKeyEvent g inp Cmd.cycleDiff now odx ody).1.p1_score = 0 ∧
      (processKeyEvent g inp Cmd.cycleDiff now odx ody).1.p2_score = 0 ∧
      (processKeyEvent g inp Cmd.cycleDiff now odx ody).1.p1_y =
        ((g.height.fdiv 2 - (5:ℤ).fdiv 2 : ℤ) : ℚ) ∧
      (processKeyEvent g inp Cmd.cycleDiff now odx ody).1.p2_y =
        ((g.height.fdiv 2 - (5:ℤ).fdiv 2 : ℤ) : ℚ) ∧
      (processKeyEvent g inp Cmd.cycleDiff now odx ody).1.ball_x =
        ((g.width.fdiv 2 : ℤ) : ℚ) ∧
      (processKeyEvent g inp Cmd.cycleDiff now odx ody).1.ball_y =
        ((g.height.fdiv 2 : ℤ) : ℚ) ∧
      (processKeyEvent g inp Cmd.cycleDiff now odx ody).1.current_difficulty =
        g.current_difficulty + 1 ∧
      (processKeyEvent g inp Cmd.cycleDiff now odx ody).1.ball_speed =
        ball_speeds (g.current_difficulty + 1) ∧
      (processKeyEvent g inp Cmd.cycleDiff now odx ody).1.ai_speed =
        (4/5) * difficulty_multipliers (g.current_difficulty + 1) ∧
      (processKeyEvent g inp Cmd.cycleDiff now odx ody).1.ai_prediction =
        (3/10) * difficulty_multipliers (g.current_difficulty + 1)) ∧
    (g.game_over = true →
      (processKeyEvent g inp Cmd.modeSwitch now odx ody).1 =
        { g with single_player := !g.single_player } ∧
      (processKeyEvent g inp Cmd.cycleDiff now odx ody).1 =
        update_difficulty_settings
          { g with current_difficulty := g.current_difficulty + 1 }) := by
  refine ⟨fun hgo => ?_, fun hgo => ?_, fun hgo => ?_⟩
  · simp [processKeyEvent, reset_game, reset_ball, hgo]
  · simp [processKeyEvent, cycle_difficulty, update_difficulty_settings,
      reset_game, reset_ball, hgo]
  · constructor
    · simp [processKeyEvent, hgo]
    · simp [processKeyEvent, cycle_difficulty, update_difficulty_settings, hgo]

/-- Witness for C9: cycling difficulty from the (Medium) example state
zeroes the scores and switches the ball interval to the Hard value
`0.01`; during game over the same input keeps the score. -/
theorem C9_mode_difficulty_reset_witness :
    (processKeyEvent { exampleState with p1_score := 3 } initInput Cmd.cycleDiff 0 1 1).1.p1_score = 0 ∧
    (processKeyEvent { exampleState with p1_score := 3 } initInput Cmd.cycleDiff 0 1 1).1.ball_speed = 1/100 ∧
    (processKeyEvent { exampleState with p1_score := 3, game_over := true, winner := some Player.P1 }
        initInput Cmd.cycleDiff 0 1 1).1.p1_score = 3 := by
  have h1 := (C9_mode_difficulty_reset { exampleState with p1_score := 3 } initInput 0 1 1).2.1 rfl
  have h2 := (C9_mode_difficulty_reset
    { exampleState with p1_score := 3, game_over := true, winner := some Player.P1 }
    initInput 0 1 1).2.2 rfl
  refine ⟨h1.1, ?_, ?_⟩
  · rw [h1.2.2.2.2.2.2.2.1]
    norm_num [exampleState, ball_speeds, show (1 + 1 : Fin 3) = 2 from rfl]
  · rw [h2.2]
    norm_num [exampleState, update_difficulty_settings]

/-- The score/game-over invariant of the tick pipeline: both scores lie in
`[0, target_score]`, strictly below it while play continues, and the
winner is set exactly when the game-over flag is. -/
def ScoreInv (g : GameState) : Prop :=
  0 < g.target_score ∧
  0 ≤ g.p1_score ∧ g.p1_score ≤ g.target_score ∧
  0 ≤ g.p2_score ∧ g.p2_score ≤ g.target_score ∧
  (g.game_over = false → g.p1_score < g.target_score ∧ g.p2_score < g.target_score) ∧
  (g.game_over = true ↔ g.winner ≠ none)

/-- Helper: the invariant only reads five fields, so it transports along
any update that fixes them. -/
theorem ScoreInv_of_eq (g g' : GameState)
    (h1 : g'.target_score = g.target_score) (h2 : g'.p1_score = g.p1_score)
    (h3 : g'.p2_score = g.p2_score) (h4 : g'.game_over = g.game_over)
    (h5 : g'.winner = g.winner) (h : ScoreInv g) : ScoreInv g' := by
  unfold ScoreInv at h ⊢
  rw [h1, h2, h3, h4, h5]
  exact h

/-- Helper: `reset_game` establishes the invariant. -/
theorem Inv_reset_game (g : GameState) (now odx ody : ℚ)
    (ht : 0 < g.target_score) : ScoreInv (reset_game g now odx ody) := by
  simp [ScoreInv, reset_game, reset_ball, ht]

/-- Helper: `update_difficulty_settings` preserves the invariant. -/
theorem Inv_update_difficulty_settings (g : GameState) (h : ScoreInv g) :
    ScoreInv (update_difficulty_settings g) :=
  ScoreInv_of_eq g _ rfl rfl rfl rfl rfl h

/-- Helper: every single key event preserves the invariant. -/
theorem Inv_processKeyEvent (g : GameState) (inp : InputState) (c : Cmd)
    (now odx ody : ℚ) (h : ScoreInv g) :
    ScoreInv (processKeyEvent g inp c now odx ody).1 := by
  cases c with
  | modeSwitch =>
    unfold processKeyEvent
    dsimp only
    split_ifs with h1
    · exact ScoreInv_of_eq g _ rfl rfl rfl rfl rfl h
    · exact Inv_reset_game _ now odx ody h.1
  | cycleDiff =>
    unfold processKeyEvent cycle_difficulty
    dsimp only
    split_ifs with h1
    · exact ScoreInv_of_eq g _ rfl rfl rfl rfl rfl h
    · exact Inv_reset_game _ now odx ody h.1
  | restartKey =>
    unfold processKeyEvent
    dsimp only
    split_ifs with h1
    · exact Inv_reset_game _ now odx ody h.1
    · exact h
  | pauseToggle =>
    unfold processKeyEvent
    dsimp only
    split_ifs with h1
    · exact h
    · exact ScoreInv_of_eq g _ rfl rfl rfl rfl rfl h
  | key k => exact h

/-- Helper: the event-drain loop preserves the invariant. -/
theorem Inv_foldl_events (cmds : List Cmd) :
    ∀ (p : GameState × InputState) (now odx ody : ℚ), ScoreInv p.1 →
      ScoreInv (cmds.foldl (fun p c => processKeyEvent p.1 p.2 c now odx ody) p).1 := by
  induction cmds with
  | nil =>
    intro p now odx ody h
    exact h
  | cons c rest ih =>
    intro p now odx ody h
    rw [List.foldl_cons]
    exact ih _ now odx ody (Inv_processKeyEvent p.1 p.2 c now odx ody h)

/-- Helper: `handle_input` preserves the invariant (the final
movement-flag assignment only touches the intent flags). -/
theorem Inv_handle_input (g : GameState) (inp : InputState) (cmds : List Cmd)
    (now odx ody : ℚ) (h : ScoreInv g) :
    ScoreInv (handle_input g inp cmds now odx ody).1 := by
  unfold handle_input
  dsimp only
  have hG := Inv_foldl_events cmds (g, inp) now odx ody h
  split_ifs with h1 h2 <;>
    exact ScoreInv_of_eq _ _ rfl rfl rfl rfl rfl hG

/-- Helper: the scoring tail preserves the invariant when entered during
play. -/
theorem Inv_scoreStep (g : GameState) (now odx ody : ℚ) (h : ScoreInv g)
    (hgo : g.game_over = false) : ScoreInv (scoreStep g now odx ody) := by
  obtain ⟨ht, h10, h1t, h20, h2t, hlt, hiff⟩ := h
  obtain ⟨hlt1, hlt2⟩ := hlt hgo
  have hw : g.winner = none := by
    by_contra hc
    have hgot := hiff.mpr hc
    rw [hgo] at hgot
    exact Bool.false_ne_true hgot
  unfold scoreStep reset_ball
  dsimp only
  split_ifs with h1 h2 h3 h4
  · simp only [ScoreInv]
    refine ⟨ht, by omega, by omega, by omega, by omega, ?_, by simp⟩
    intro hfalse
    exact absurd hfalse (by simp)
  · simp only [ScoreInv]
    exact ⟨ht, by omega, by omega, by omega, by omega,
      fun _ => ⟨by omega, by omega⟩, by rw [hgo]; simp [hw]⟩
  · simp only [ScoreInv]
    refine ⟨ht, by omega, by omega, by omega, by omega, ?_, by simp⟩
    intro hfalse
    exact absurd hfalse (by simp)
  · simp only [ScoreInv]
    exact ⟨ht, by omega, by omega, by omega, by omega,
      fun _ => ⟨by omega, by omega⟩, by rw [hgo]; simp [hw]⟩
  · exact ⟨ht, h10, h1t, h20, h2t, fun _ => ⟨hlt1, hlt2⟩, by rw [hgo] at hiff ⊢; exact hiff⟩

/-- Helper: `update_ball` preserves the invariant when entered during
play (integration and collisions never touch scores or flags; scoring is
handled by `Inv_scoreStep`). -/
theorem Inv_update_ball (g : GameState) (now odx ody : ℚ) (h : ScoreInv g)
    (hgo : g.game_over = false) : ScoreInv (update_ball g now odx ody) := by
  unfold update_ball
  dsimp only
  split_ifs with hgate
  · exact h
  · exact Inv_scoreStep _ now odx ody
      (ScoreInv_of_eq g _ rfl rfl rfl rfl rfl h) hgo

/-- Helper: the AI update preserves the invariant (it only moves the
right paddle). -/
theorem Inv_update_ai_paddle (g : GameState) (now : ℚ) (na : Bool) (nz : ℚ)
    (h : ScoreInv g) : ScoreInv (update_ai_paddle g now na nz) := by
  have e : (update_ai_paddle g now na nz).target_score = g.target_score ∧
      (update_ai_paddle g now na nz).p1_score = g.p1_score ∧
      (update_ai_paddle g now na nz).p2_score = g.p2_score ∧
      (update_ai_paddle g now na nz).game_over = g.game_over ∧
      (update_ai_paddle g now na nz).winner = g.winner := by
    unfold update_ai_paddle
    dsimp only
    split_ifs <;> exact ⟨rfl, rfl, rfl, rfl, rfl⟩
  exact ScoreInv_of_eq g _ e.1 e.2.1 e.2.2.1 e.2.2.2.1 e.2.2.2.2 h

/-- Helper: the paddle-movement update preserves the invariant (it only
moves paddles). -/
theorem Inv_update_paddle_movement (g : GameState) (now : ℚ) (h : ScoreInv g) :
    ScoreInv (update_paddle_movement g now) := by
  have e : (update_paddle_movement g now).target_score = g.target_score ∧
      (update_paddle_movement g now).p1_score = g.p1_score ∧
      (update_paddle_movement g now).p2_score = g.p2_score ∧
      (update_paddle_movement g now).game_over = g.game_over ∧
      (update_paddle_movement g now).winner = g.winner := by
    unfold update_paddle_movement
    dsimp only
    split_ifs <;> exact ⟨rfl, rfl, rfl, rfl, rfl⟩
  exact ScoreInv_of_eq g _ e.1 e.2.1 e.2.2.1 e.2.2.2.1 e.2.2.2.2 h

/-- Helper: one full `run`-loop tick preserves the invariant. -/
theorem Inv_tick (g : GameState) (inp : InputState) (cmds : List Cmd)
    (now odx ody : ℚ) (na : Bool) (nz : ℚ) (h : ScoreInv g) :
    ScoreInv (tick g inp cmds now odx ody na nz).1 := by
  unfold tick
  dsimp only
  have hG := Inv_handle_input g inp cmds now odx ody h
  split_ifs with h1 h2
  · exact Inv_update_paddle_movement _ now
      (Inv_update_ai_paddle _ now na nz
        (Inv_update_ball _ now odx ody hG (by simpa using h1.1)))
  · exact Inv_update_ai_paddle _ now na nz
      (Inv_update_ball _ now odx ody hG (by simpa using h1.1))
  · exact hG

/-- Helper: during game over, any single non-restart key event leaves
both scores, the game-over flag and the winner untouched. -/
theorem processKeyEvent_game_over (g : GameState) (inp : InputState) (c : Cmd)
    (now odx ody : ℚ) (hgo : g.game_over = true) (hc : c ≠ Cmd.restartKey) :
    (processKeyEvent g inp c now odx ody).1.p1_score = g.p1_score ∧
    (processKeyEvent g inp c now odx ody).1.p2_score = g.p2_score ∧
    (processKeyEvent g inp c now odx ody).1.game_over = true ∧
    (processKeyEvent g inp c now odx ody).1.winner = g.winner := by
  cases c with
  | modeSwitch => simp [processKeyEvent, hgo]
  | cycleDiff =>
    simp [processKeyEvent, cycle_difficulty, update_difficulty_settings, hgo]
  | restartKey => exact absurd rfl hc
  | pauseToggle => simp [processKeyEvent, hgo]
  | key k => simp [processKeyEvent, hgo]

/-- Helper: during game over, the whole event-drain loop without a
restart key leaves scores, flag and winner untouched. -/
theorem foldl_events_game_over (cmds : List Cmd) :
    ∀ (p : GameState × InputState) (now odx ody : ℚ), p.1.game_over = true →
      Cmd.restartKey ∉ cmds →
      (cmds.foldl (fun p c => processKeyEvent p.1 p.2 c now odx ody) p).1.p1_score = p.1.p1_score ∧
      (cmds.foldl (fun p c => processKeyEvent p.1 p.2 c now odx ody) p).1.p2_score = p.1.p2_score ∧
      (cmds.foldl (fun p c => processKeyEvent p.1 p.2 c now odx ody) p).1.game_over = true ∧
      (cmds.foldl (fun p c => processKeyEvent p.1 p.2 c now odx ody) p).1.winner = p.1.winner := by
  induction cmds with
  | nil =>
    intro p now odx ody hgo _
    exact ⟨rfl, rfl, hgo, rfl⟩
  | cons c rest ih =>
    intro p now odx ody hgo hmem
    have hc : c ≠ Cmd.restartKey := fun he => hmem (he ▸ List.mem_cons_self _ _)
    have hrest : Cmd.restartKey ∉ rest := fun he => hmem (List.mem_cons_of_mem _ he)
    obtain ⟨e1, e2, e3, e4⟩ := processKeyEvent_game_over p.1 p.2 c now odx ody hgo hc
    rw [List.foldl_cons]
    obtain ⟨f1, f2, f3, f4⟩ := ih (processKeyEvent p.1 p.2 c now odx ody) now odx ody e3 hrest
    exact ⟨f1.trans e1, f2.trans e2, f3, f4.trans e4⟩

/-- C10: score and game-over invariants of the tick pipeline.  (a) The
state built by `__init__` satisfies the invariant; (b) every tick
preserves it (each score stays in `[0, target_score]` and the winner is
set exactly when the game-over flag is); (c) once game over holds, a tick
without a restart key changes neither score, keeps the flag, and keeps
the winner; (d) a reset zeroes both scores and clears both the flag and
the winner. -/
theorem C10_score_invariants :
    (∀ (h w : ℤ) (now odx ody : ℚ), ScoreInv (initGame h w now odx ody)) ∧
    (∀ (g : GameState) (inp : InputState) (cmds : List Cmd) (now odx ody : ℚ)
        (na : Bool) (nz : ℚ), ScoreInv g →
      ScoreInv (tick g inp cmds now odx ody na nz).1) ∧
    (∀ (g : GameState) (inp : InputState) (cmds : List Cmd) (now odx ody : ℚ)
        (na : Bool) (nz : ℚ), g.game_over = true → Cmd.restartKey ∉ cmds →
      (tick g inp cmds now odx ody na nz).1.p1_score = g.p1_score ∧
      (tick g inp cmds now odx ody na nz).1.p2_score = g.p2_score ∧
      (tick g inp cmds now odx ody na nz).1.game_over = true ∧
      (tick g inp cmds now odx ody na nz).1.winner = g.winner) ∧
    (∀ (g : GameState) (now odx ody : ℚ),
      (reset_game g now odx ody).p1_score = 0 ∧
      (reset_game g now odx ody).p2_score = 0 ∧
      (reset_game g now odx ody).game_over = false ∧
      (reset_game g now odx ody).winner = none) := by
  refine ⟨fun h w now odx ody => ?_, Inv_tick, ?_,
    fun g now odx ody => ⟨rfl, rfl, rfl, rfl⟩⟩
  · exact Inv_update_difficulty_settings _ (Inv_reset_game _ now odx ody (by norm_num))
  · intro g inp cmds now odx ody na nz hgo hmem
    unfold tick handle_input
    dsimp only
    obtain ⟨e1, e2, e3, e4⟩ := foldl_events_game_over cmds (g, inp) now odx ody hgo hmem
    simp [e1, e2, e3, e4]

/-- Witness for C10: the example state satisfies the invariant and one
tick from it preserves it. -/
theorem C10_score_invariants_witness :
    ScoreInv (tick exampleState initInput [] 1 0 0 false 0).1 :=
  C10_score_invariants.2.1 exampleState initInput [] 1 0 0 false 0
    (by norm_num [ScoreInv, exampleState])
